import Mathlib

/-!
Shallow embedding of the FishVault unlock / encrypt / decrypt gating logic.

Sources embedded:
- `src/unnamed/part_004` (lib/session.ts): `checkUnlocked`, `setUnlockedUntil`,
  `getUnlockedUntil`, `lockNow` over the Supabase `sessions` table
  (`owner_id → unlocked_until`, a nullable timestamp).
- `src/app/api/secrets/create/route.ts` and `src/app/api/secrets/decrypt/route.ts`:
  the POST handlers, modelled up to the point where they would call the external
  Fish KMS service (the call itself is represented by a dedicated constructor,
  so "the KMS is never invoked" is the statement that the handler returns a
  rejection instead).
- `src/app/api/session/unlock/route.ts`: the unlock POST handler.
- `src/unnamed/part_003` (lib/fishkms.ts): the HTTP client wrappers.

Timestamps are naturals (epoch milliseconds); the database tables are
association lists keyed by `owner_id`.
-/

namespace FishVault

/-- Result of a Supabase `.select(...).eq(...).single()` read: a database error,
no matching row, or the row's (nullable) column value. -/
inductive QueryResult (α : Type) where
  | qError : QueryResult α
  | qNone : QueryResult α
  | qData : α → QueryResult α
deriving DecidableEq

/-- The `sessions` table: `owner_id → unlocked_until` (nullable timestamp). -/
abbrev SessionDb := List (String × Option Nat)

/-- A successful single-row read of `sessions.unlocked_until` for one owner:
`qNone` when no row matches (Supabase `.single()` reports this as an error
object, which `checkUnlocked` treats identically to any other error). -/
def readSession (db : SessionDb) (owner : String) : QueryResult (Option Nat) :=
  match db.lookup owner with
  | none => .qNone
  | some u => .qData u

/-- `checkUnlocked` from lib/session.ts, as a function of the raw read result:
`error || !data → false`; `!data.unlocked_until → false`; else
`unlockedUntil > new Date()` (strict). -/
def checkUnlocked (res : QueryResult (Option Nat)) (now : Nat) : Bool :=
  match res with
  | .qError => false
  | .qNone => false
  | .qData none => false
  | .qData (some u) => decide (u > now)

/-- `checkUnlocked` applied to a healthy (error-free) read of the table. -/
def isUnlockedDb (db : SessionDb) (owner : String) (now : Nat) : Bool :=
  checkUnlocked (readSession db owner) now

/-- `setUnlockedUntil` from lib/session.ts: Supabase
`upsert({owner_id, unlocked_until}, onConflict owner_id)` — replace the
owner's row if present, insert it otherwise. -/
def setUnlockedUntil (db : SessionDb) (owner : String) (ts : Nat) : SessionDb :=
  match db with
  | [] => [(owner, some ts)]
  | (o, u) :: rest =>
    if o = owner then (owner, some ts) :: rest
    else (o, u) :: setUnlockedUntil rest owner ts

/-- `getUnlockedUntil` from lib/session.ts: `error || !data || !data.unlocked_until`
yields null, else the stored timestamp. -/
def getUnlockedUntil (db : SessionDb) (owner : String) : Option Nat :=
  match readSession db owner with
  | .qData (some u) => some u
  | _ => none

/-- `lockNow` from lib/session.ts: Supabase
`update({unlocked_until: now}).eq('owner_id', userId)` — every row matching the
owner has its timestamp set to `now`; with no matching row the update affects
zero rows and the table is unchanged. -/
def lockNow (db : SessionDb) (owner : String) (now : Nat) : SessionDb :=
  db.map (fun p => if p.1 = owner then (p.1, some now) else p)

/-- Body of the Fish KMS `/unlock` response (lib/fishkms.ts `UnlockResponse`). -/
structure UnlockResponse where
  ok : Bool
  error : Option String
deriving DecidableEq

/-- `unlockVault` from lib/fishkms.ts: when the HTTP response is not ok the
client returns `{ok: false, error: "HTTP <status>"}` without reading the body;
otherwise it returns the parsed body. -/
def unlockVault (httpOk : Bool) (httpStatus : Nat) (body : UnlockResponse) :
    UnlockResponse :=
  if httpOk then body
  else { ok := false, error := some ("HTTP " ++ toString httpStatus) }

/-- `UNLOCK_WINDOW_MINUTES` default from app/api/session/unlock/route.ts
(`process.env.UNLOCK_WINDOW_MINUTES || '10'`). -/
def UNLOCK_WINDOW_MINUTES : Nat := 10

/-- The unlock window in epoch-millisecond units, as produced by
`unlockedUntil.setMinutes(unlockedUntil.getMinutes() + UNLOCK_WINDOW_MINUTES)`. -/
def unlockWindowMs : Nat := UNLOCK_WINDOW_MINUTES * 60 * 1000

/-- JSON response of the unlock route. -/
structure UnlockRouteResponse where
  status : Nat
  ok : Bool
  error : Option String
  unlockedUntil : Option Nat
deriving DecidableEq

/-- `unlockResult.error || 'Unlock failed'`: JavaScript `||` also replaces the
empty string. -/
def errorOrDefault (e : Option String) : String :=
  match e with
  | none => "Unlock failed"
  | some s => if s = "" then "Unlock failed" else s

/-- The POST handler of app/api/session/unlock/route.ts: authenticate, call the
KMS unlock, and only on a KMS-reported success write `now + window` into the
sessions table and return it; on KMS failure return 400 with the table
untouched. Returns the JSON response and the resulting sessions table. -/
def unlockPOST (db : SessionDb) (userId : Option String)
    (kmsResult : UnlockResponse) (now : Nat) :
    UnlockRouteResponse × SessionDb :=
  match userId with
  | none =>
    ({ status := 401, ok := false, error := some "Not authenticated",
       unlockedUntil := none }, db)
  | some uid =>
    if kmsResult.ok then
      ({ status := 200, ok := true, error := none,
         unlockedUntil := some (now + unlockWindowMs) },
       setUnlockedUntil db uid (now + unlockWindowMs))
    else
      ({ status := 400, ok := false,
         error := some (errorOrDefault kmsResult.error),
         unlockedUntil := none }, db)

/-- A row of the Supabase `secrets` table (the columns the decrypt route
selects or filters on). -/
structure SecretRow where
  id : String
  owner_id : String
  ciphertext : String
  nonce : String
deriving DecidableEq

/-- Outcome of the decrypt POST handler up to the external KMS call:
either an early JSON rejection (status, error message) — in which case the KMS
decrypt is never invoked — or the ciphertext/nonce pair handed to
`decryptSecret`. -/
inductive DecryptDecision where
  | reject : Nat → String → DecryptDecision
  | callKms : String → String → DecryptDecision
deriving DecidableEq

/-- The POST handler of app/api/secrets/decrypt/route.ts: authenticate, check
`checkUnlocked` (403 while locked), validate `secretId` (JavaScript
`!secretId` also rejects the empty string), fetch the secret by BOTH
`id = secretId` and `owner_id = userId` (404 when absent), then call the KMS. -/
def decryptPOST (sessions : SessionDb) (secrets : List SecretRow)
    (userId : Option String) (secretId : Option String) (now : Nat) :
    DecryptDecision :=
  match userId with
  | none => .reject 401 "Not authenticated"
  | some uid =>
    if isUnlockedDb sessions uid now then
      match secretId with
      | none => .reject 400 "Secret ID is required"
      | some sid =>
        if sid = "" then .reject 400 "Secret ID is required"
        else
          match secrets.find? (fun r => r.id == sid && r.owner_id == uid) with
          | none => .reject 404 "Secret not found"
          | some r => .callKms r.ciphertext r.nonce
    else .reject 403 "Vault is locked. Please unlock first."

/-- Outcome of the create POST handler up to the external KMS call: either an
early JSON rejection — the KMS encrypt is never invoked — or the plaintext
handed to `encryptSecret`. -/
inductive CreateDecision where
  | rejectC : Nat → String → CreateDecision
  | callKmsEncrypt : String → CreateDecision
deriving DecidableEq

/-- The POST handler of app/api/secrets/create/route.ts: authenticate, check
`checkUnlocked` (403 while locked), validate `title` and `plaintext`
(JavaScript `!title` / `!plaintext` reject a missing field AND the empty
string), then call the KMS encrypt. -/
def createPOST (sessions : SessionDb) (userId : Option String)
    (title : Option String) (plaintext : Option String) (now : Nat) :
    CreateDecision :=
  match userId with
  | none => .rejectC 401 "Not authenticated"
  | some uid =>
    if isUnlockedDb sessions uid now then
      match title with
      | none => .rejectC 400 "Title is required"
      | some t =>
        if t = "" then .rejectC 400 "Title is required"
        else
          match plaintext with
          | none => .rejectC 400 "Secret value is required"
          | some p =>
            if p = "" then .rejectC 400 "Secret value is required"
            else .callKmsEncrypt p
    else .rejectC 403 "Vault is locked. Please unlock first."

/-- `encryptSecret` from lib/fishkms.ts: throws `Encrypt failed: HTTP <status>`
when the HTTP response is not ok, otherwise returns the parsed
`{ciphertext, nonce}` body. Takes no unlock state of any kind. -/
def encryptSecret (httpOk : Bool) (httpStatus : Nat) (body : String × String) :
    Except String (String × String) :=
  if httpOk then .ok body
  else .error ("Encrypt failed: HTTP " ++ toString httpStatus)

/-- Modelled from the spec: the Fish KMS cipher engine (fish-kms/crypto.py,
AES-256-GCM) is not under src/ — only its HTTP client and documentation are.
Following §4.3, the AEAD keystream derived from the per-owner key and the
per-call nonce is abstracted as an arbitrary function `prf`; one keystream
byte per plaintext byte. -/
def keystream (prf : Nat → Nat → Nat → Nat) (key nonce len : Nat) : List Nat :=
  (List.range len).map (prf key nonce)

/-- Bytewise XOR of two byte lists (truncating to the shorter). -/
def xorBytes (a b : List Nat) : List Nat := List.zipWith Nat.xor a b

/-- Modelled from the spec: an AEAD sealed box — ciphertext bytes plus the
authentication tag produced alongside them (§4.3: "ciphertext+tag"). -/
structure Sealed where
  ct : List Nat
  tag : Nat
deriving DecidableEq

/-- Modelled from the spec (§4.3 encrypt): XOR the plaintext with the keystream
and attach an authentication tag over the ciphertext, computed by an arbitrary
MAC function `mac` of the key, the nonce and the ciphertext. -/
def gcmEncrypt (prf : Nat → Nat → Nat → Nat) (mac : Nat → Nat → List Nat → Nat)
    (key nonce : Nat) (p : List Nat) : Sealed :=
  let c := xorBytes p (keystream prf key nonce p.length)
  { ct := c, tag := mac key nonce c }

/-- Modelled from the spec (§4.3 decrypt): recompute the tag; on mismatch fail
uniformly with no plaintext; on match undo the keystream XOR. -/
def gcmDecrypt (prf : Nat → Nat → Nat → Nat) (mac : Nat → Nat → List Nat → Nat)
    (key nonce : Nat) (s : Sealed) : Option (List Nat) :=
  if s.tag = mac key nonce s.ct then
    some (xorBytes s.ct (keystream prf key nonce s.ct.length))
  else none

/-- The key vault: `owner → master key` (the 32 bytes abstracted as one
natural). -/
abbrev Vault := List (String × Nat)

/-- Modelled from the spec (§4.2): `getOrCreate(ownerId)` — return the stored
key unchanged when present; otherwise persist and return a freshly generated
key (the random generation abstracted as the supplied `fresh` value). -/
def getOrCreate (vault : Vault) (owner : String) (fresh : Nat) : Nat × Vault :=
  match vault.lookup owner with
  | some k => (k, vault)
  | none => (fresh, (owner, fresh) :: vault)

/-- The Fish KMS in-memory unlock ledger: `owner → unlocked_until`. -/
abbrev Ledger := List (String × Nat)

/-- Modelled from the spec (§4.4): `isUnlocked(ownerId)` — true iff a window
exists and `unlockedUntil > now`; an owner never unlocked is LOCKED. -/
def kmsIsUnlocked (ledger : Ledger) (owner : String) (now : Nat) : Bool :=
  match ledger.lookup owner with
  | some u => decide (u > now)
  | none => false

/-- Modelled from the spec (§4.3 / §6 Encrypt): obtain the key via the vault,
use the fresh nonce, AEAD-encrypt; no unlock check. Returns the sealed box,
the nonce, and the (possibly extended) vault. -/
def kmsEncrypt (prf : Nat → Nat → Nat → Nat) (mac : Nat → Nat → List Nat → Nat)
    (vault : Vault) (owner : String) (fresh nonce : Nat) (p : List Nat) :
    (Sealed × Nat) × Vault :=
  let kv := getOrCreate vault owner fresh
  ((gcmEncrypt prf mac kv.1 nonce p, nonce), kv.2)

/-- Modelled from the spec (§4.3 / §6 Decrypt): permitted only while the owner
is unlocked in the ledger; obtain the key via the vault and AEAD-decrypt. -/
def kmsDecrypt (prf : Nat → Nat → Nat → Nat) (mac : Nat → Nat → List Nat → Nat)
    (vault : Vault) (ledger : Ledger) (owner : String) (fresh : Nat)
    (s : Sealed) (nonce : Nat) (now : Nat) : Option (List Nat) :=
  if kmsIsUnlocked ledger owner now then
    gcmDecrypt prf mac (getOrCreate vault owner fresh).1 nonce s
  else none

/-! Helper lemmas. -/

theorem length_keystream (prf : Nat → Nat → Nat → Nat) (key nonce len : Nat) :
    (keystream prf key nonce len).length = len := by
  simp [keystream]

theorem nat_xor_cancel (a b : Nat) : Nat.xor (Nat.xor a b) b = a := by
  show a ^^^ b ^^^ b = a
  rw [Nat.xor_assoc, Nat.xor_self, Nat.xor_zero]

theorem xorBytes_cancel (p ks : List Nat) (h : p.length ≤ ks.length) :
    xorBytes (xorBytes p ks) ks = p := by
  induction p generalizing ks with
  | nil => simp [xorBytes]
  | cons a p ih =>
    cases ks with
    | nil => simp at h
    | cons b ks =>
      have hlen : p.length ≤ ks.length := by simpa using h
      simp only [xorBytes, List.zipWith_cons_cons]
      rw [nat_xor_cancel]
      have hrec := ih ks hlen
      simp only [xorBytes] at hrec
      rw [hrec]

theorem gcm_roundtrip (prf : Nat → Nat → Nat → Nat)
    (mac : Nat → Nat → List Nat → Nat) (key nonce : Nat) (p : List Nat) :
    gcmDecrypt prf mac key nonce (gcmEncrypt prf mac key nonce p) = some p := by
  unfold gcmDecrypt gcmEncrypt
  simp only [if_pos rfl]
  have hct : (xorBytes p (keystream prf key nonce p.length)).length = p.length := by
    simp [xorBytes, length_keystream]
  rw [hct]
  rw [xorBytes_cancel p (keystream prf key nonce p.length)
    (by rw [length_keystream])]
  simp

theorem getOrCreate_getOrCreate (vault : Vault) (owner : String) (f g : Nat) :
    getOrCreate (getOrCreate vault owner f).2 owner g =
      ((getOrCreate vault owner f).1, (getOrCreate vault owner f).2) := by
  unfold getOrCreate
  cases h : vault.lookup owner with
  | some k => simp [h]
  | none => simp [h, List.lookup]

theorem lookup_setUnlockedUntil (db : SessionDb) (owner : String) (ts : Nat) :
    (setUnlockedUntil db owner ts).lookup owner = some (some ts) := by
  induction db with
  | nil => simp [setUnlockedUntil, List.lookup]
  | cons p rest ih =>
    obtain ⟨o, u⟩ := p
    by_cases hp : o = owner
    · simp [setUnlockedUntil, hp, List.lookup]
    · have hp2 : (owner == o) = false := by
        simp [beq_eq_false_iff_ne]
        exact fun he => hp he.symm
      simp [setUnlockedUntil, hp, List.lookup, hp2, ih]

theorem lookup_lockNow (db : SessionDb) (owner : String) (now : Nat) :
    (lockNow db owner now).lookup owner =
      (db.lookup owner).map (fun _ => some now) := by
  induction db with
  | nil => rfl
  | cons p rest ih =>
    obtain ⟨k, v⟩ := p
    by_cases hk : k = owner
    · subst hk
      simp only [lockNow, List.map_cons]
      simp [List.lookup]
    · have hk2 : (owner == k) = false := by
        simp [beq_eq_false_iff_ne]
        exact fun he => hk he.symm
      simp only [lockNow, List.map_cons]
      rw [if_neg hk]
      simp only [List.lookup, hk2]
      simpa [lockNow] using ih

/-! Claim theorems. -/

/-- C1: for every owner and every decrypt request, if the owner's unlock window
is not currently valid (`checkUnlocked` false: no stored window or
`unlockedUntil` not strictly later than now), the decrypt route fails with
HTTP 403 and the authorization message "Vault is locked. Please unlock
first." — a `reject` outcome, distinct from any crypto error and meaning the
KMS decrypt is never invoked — regardless of the requested secret or the
stored ciphertext records. -/
theorem C1_decrypt_locked_rejects (sessions : SessionDb)
    (secrets : List SecretRow) (uid : String) (secretId : Option String)
    (now : Nat) (h : isUnlockedDb sessions uid now = false) :
    decryptPOST sessions secrets (some uid) secretId now =
      .reject 403 "Vault is locked. Please unlock first." := by
  simp [decryptPOST, h]

theorem C1_witness :
    isUnlockedDb [] "u1" 0 = false ∧
    decryptPOST [] [⟨"s1", "u1", "ct", "n"⟩] (some "u1") (some "s1") 0 =
      .reject 403 "Vault is locked. Please unlock first." :=
  ⟨rfl, C1_decrypt_locked_rejects [] [⟨"s1", "u1", "ct", "n"⟩] "u1"
    (some "s1") 0 rfl⟩

/-- C2 counterexample: with no stored unlock window, owner "u1" is locked, and
a create (encrypt) request with a valid title and plaintext does NOT reach the
KMS encrypt — it is rejected 403 by the unlock check on the encrypt path,
refuting the claim that encrypt is never gated by the unlock state. -/
theorem C2_counterexample :
    createPOST [] (some "u1") (some "title") (some "pw") 0 =
      .rejectC 403 "Vault is locked. Please unlock first." := rfl

/-- C2 amended: the web create route gates encrypt on the unlock state: for
every owner whose unlock window is not currently valid, a create request fails
with 403 "Vault is locked. Please unlock first." (before any field validation)
and the KMS encrypt is never invoked; only the KMS client `encryptSecret`
itself performs no unlock check. -/
theorem C2_create_gated (sessions : SessionDb) (uid : String)
    (title plaintext : Option String) (now : Nat)
    (h : isUnlockedDb sessions uid now = false) :
    createPOST sessions (some uid) title plaintext now =
      .rejectC 403 "Vault is locked. Please unlock first." := by
  simp [createPOST, h]

theorem C2_witness :
    isUnlockedDb [] "u1" 0 = false ∧
    createPOST [] (some "u1") (some "title") (some "pw") 0 =
      .rejectC 403 "Vault is locked. Please unlock first." :=
  ⟨rfl, C2_create_gated [] "u1" (some "title") (some "pw") 0 rfl⟩

/-- C3: for every owner and every plaintext (the empty byte list included),
decrypting the sealed box and nonce produced by the KMS encrypt, while the
owner is unlocked in the KMS ledger, returns exactly the plaintext — for any
keystream function, any MAC, any prior vault contents and any fresh-key
supplies. -/
theorem C3_roundtrip (prf : Nat → Nat → Nat → Nat)
    (mac : Nat → Nat → List Nat → Nat) (vault : Vault) (ledger : Ledger)
    (owner : String) (fresh fresh2 nonce now : Nat) (p : List Nat)
    (h : kmsIsUnlocked ledger owner now = true) :
    kmsDecrypt prf mac (kmsEncrypt prf mac vault owner fresh nonce p).2 ledger
      owner fresh2 (kmsEncrypt prf mac vault owner fresh nonce p).1.1
      (kmsEncrypt prf mac vault owner fresh nonce p).1.2 now = some p := by
  unfold kmsDecrypt kmsEncrypt
  simp only [h, if_true]
  rw [getOrCreate_getOrCreate]
  exact gcm_roundtrip prf mac (getOrCreate vault owner fresh).1 nonce p

theorem C3_witness :
    kmsIsUnlocked [("u1", 5)] "u1" 0 = true ∧
    kmsDecrypt (fun k n i => k + n + i) (fun k n c => k + n + c.length)
      (kmsEncrypt (fun k n i => k + n + i) (fun k n c => k + n + c.length)
        [] "u1" 7 3 [1, 2, 250]).2 [("u1", 5)] "u1" 9
      (kmsEncrypt (fun k n i => k + n + i) (fun k n c => k + n + c.length)
        [] "u1" 7 3 [1, 2, 250]).1.1
      (kmsEncrypt (fun k n i => k + n + i) (fun k n c => k + n + c.length)
        [] "u1" 7 3 [1, 2, 250]).1.2 0 = some [1, 2, 250] :=
  ⟨rfl, C3_roundtrip (fun k n i => k + n + i) (fun k n c => k + n + c.length)
    [] [("u1", 5)] "u1" 7 9 3 0 [1, 2, 250] rfl⟩

/-- C4: `checkUnlocked` over a healthy read returns true exactly when a stored
row exists for the owner whose `unlocked_until` is non-null and strictly later
than now; in particular an owner with no stored row (never previously
unlocked) is locked. The expiry is decided purely from the stored timestamp at
read time. -/
theorem C4_isUnlocked_iff (db : SessionDb) (owner : String) (now : Nat) :
    isUnlockedDb db owner now = true ↔
      ∃ u, db.lookup owner = some (some u) ∧ u > now := by
  cases h : db.lookup owner with
  | none => simp [isUnlockedDb, readSession, checkUnlocked, h]
  | some u =>
    cases u with
    | none => simp [isUnlockedDb, readSession, checkUnlocked, h]
    | some t => simp [isUnlockedDb, readSession, checkUnlocked, h]

theorem C4_witness :
    isUnlockedDb [("u1", some 5)] "u1" 3 = true :=
  (C4_isUnlocked_iff [("u1", some 5)] "u1" 3).mpr ⟨5, rfl, by decide⟩

/-- C5: after a successful unlock, the stored `unlocked_until` for the owner
equals the time of the call plus the configured window (default 10 minutes =
600 seconds), this value overwrites any previously stored window for that
owner (the lookup result does not depend on the prior table contents), and
the response carries the same timestamp. -/
theorem C5_unlock_sets_window (db : SessionDb) (uid : String)
    (e : Option String) (now : Nat) :
    (unlockPOST db (some uid) { ok := true, error := e } now).2.lookup uid =
        some (some (now + unlockWindowMs)) ∧
    (unlockPOST db (some uid) { ok := true, error := e } now).1.unlockedUntil =
        some (now + unlockWindowMs) ∧
    unlockWindowMs = 600 * 1000 := by
  refine ⟨?_, rfl, rfl⟩
  show (setUnlockedUntil db uid (now + unlockWindowMs)).lookup uid = _
  exact lookup_setUnlockedUntil db uid _

/-- C6 counterexample: owner "u1" is unlocked (window 5 > now 0) and submits a
valid title with the empty-string plaintext; the create route rejects it as a
validation error (400 "Secret value is required") instead of encrypting it,
refuting the claim that an empty-plaintext encrypt request succeeds. -/
theorem C6_counterexample :
    createPOST [("u1", some 5)] (some "u1") (some "t") (some "") 0 =
      .rejectC 400 "Secret value is required" := rfl

/-- C6 amended: the create route rejects the empty-string plaintext as a
validation error: for every unlocked owner and nonempty title, a create
request whose plaintext is the empty string fails with 400 "Secret value is
required" (the JavaScript falsiness check `!plaintext`), and the KMS encrypt
is never invoked. -/
theorem C6_empty_plaintext_rejected (sessions : SessionDb) (uid t : String)
    (now : Nat) (hu : isUnlockedDb sessions uid now = true) (ht : t ≠ "") :
    createPOST sessions (some uid) (some t) (some "") now =
      .rejectC 400 "Secret value is required" := by
  simp [createPOST, hu, ht]

theorem C6_witness :
    isUnlockedDb [("u1", some 5)] "u1" 0 = true ∧
    createPOST [("u1", some 5)] (some "u1") (some "t") (some "") 0 =
      .rejectC 400 "Secret value is required" :=
  ⟨rfl, C6_empty_plaintext_rejected [("u1", some 5)] "u1" "t" 0 rfl
    (by decide)⟩

/-- C7: for every owner and every prior unlock state (any table contents:
unlocked, expired, or no row at all), after `lockNow` the owner is locked:
the matching row's timestamp is set to now (strictly-greater comparison fails)
or no row exists, so `isUnlocked` evaluates to false immediately afterwards. -/
theorem C7_lockNow_locks (db : SessionDb) (owner : String) (now : Nat) :
    isUnlockedDb (lockNow db owner now) owner now = false := by
  unfold isUnlockedDb readSession
  rw [lookup_lockNow]
  cases h : db.lookup owner with
  | none => simp [checkUnlocked]
  | some u => simp [checkUnlocked]

/-- C8: when the KMS unlock call does not report success, the unlock route
fails with a non-ok 400 response and the sessions table is returned unchanged
(`setUnlockedUntil` is never reached); and when the sample succeeds, the
response carries the absolute `unlockedUntil` timestamp that was written. -/
theorem C8_unlock_failure_no_write (db : SessionDb) (uid : String)
    (e e2 : Option String) (now : Nat) :
    (unlockPOST db (some uid) { ok := false, error := e } now).1.ok = false ∧
    (unlockPOST db (some uid) { ok := false, error := e } now).1.status =
      400 ∧
    (unlockPOST db (some uid) { ok := false, error := e } now).2 = db ∧
    (unlockPOST db (some uid) { ok := true, error := e2 } now).1.unlockedUntil
      = some (now + unlockWindowMs) :=
  ⟨rfl, rfl, rfl, rfl⟩

/-- C9: `checkUnlocked` is fail-closed and total: a session-store read that
yields an error, no row, or a row with a null `unlocked_until` all evaluate to
false (locked) rather than throwing, so a persistence read failure can never
make an owner appear unlocked. -/
theorem C9_checkUnlocked_fail_closed (now : Nat) :
    checkUnlocked .qError now = false ∧ checkUnlocked .qNone now = false ∧
      checkUnlocked (.qData none) now = false :=
  ⟨rfl, rfl, rfl⟩

/-- C10: the decrypt route looks the ciphertext record up by BOTH the given
secretId and the authenticated owner's id: when no record matches both, the
request fails 404 "Secret not found" and the KMS decrypt is never invoked;
and whenever the KMS decrypt IS invoked, its ciphertext and nonce come from a
stored record owned by the requesting owner. -/
theorem C10_decrypt_owner_scoped (sessions : SessionDb)
    (secrets : List SecretRow) (uid sid : String) (now : Nat)
    (hu : isUnlockedDb sessions uid now = true) (hsid : sid ≠ "") :
    (secrets.find? (fun r => r.id == sid && r.owner_id == uid) = none →
      decryptPOST sessions secrets (some uid) (some sid) now =
        .reject 404 "Secret not found") ∧
    (∀ ct n, decryptPOST sessions secrets (some uid) (some sid) now =
        .callKms ct n →
      ∃ r ∈ secrets, r.owner_id = uid ∧ r.id = sid ∧
        r.ciphertext = ct ∧ r.nonce = n) := by
  constructor
  · intro hf
    simp [decryptPOST, hu, hsid, hf]
  · intro ct n hcall
    cases hf : secrets.find? (fun r => r.id == sid && r.owner_id == uid) with
    | none =>
      have hrej : decryptPOST sessions secrets (some uid) (some sid) now =
          .reject 404 "Secret not found" := by
        simp [decryptPOST, hu, hsid, hf]
      rw [hrej] at hcall
      exact absurd hcall (by simp)
    | some r =>
      have hcall2 : decryptPOST sessions secrets (some uid) (some sid) now =
          .callKms r.ciphertext r.nonce := by
        simp [decryptPOST, hu, hsid, hf]
      rw [hcall2] at hcall
      have hpred := List.find?_some hf
      simp only [Bool.and_eq_true, beq_iff_eq] at hpred
      have hmem := List.mem_of_find?_eq_some hf
      injection hcall with h1 h2
      exact ⟨r, hmem, hpred.2, hpred.1, h1, h2⟩

theorem C10_witness :
    decryptPOST [("u1", some 5)] [⟨"s1", "u2", "ct", "n"⟩] (some "u1")
      (some "s1") 0 = .reject 404 "Secret not found" :=
  (C10_decrypt_owner_scoped [("u1", some 5)] [⟨"s1", "u2", "ct", "n"⟩]
    "u1" "s1" 0 rfl (by decide)).1 rfl

end FishVault
